import Mathlib

/-!
Shallow embedding of the session-aggregation core of the cursor-overlay
application: the Claude JSONL session reader (src/database/claude-jsonl-reader.ts),
the Cursor key-value database reader (CursorDatabaseReader), the merged
get-recent-chats IPC handler (src/main.ts) and the renderer mapping
mapSummaryToTask (useOverlayData hook).

JavaScript strings are modelled as Lean `String`; the JS string methods used by
the code (split, substring, trim, startsWith, includes) are re-implemented over
the underlying character list so that concrete runs reduce inside the kernel.
JavaScript numbers holding epoch milliseconds or differences are modelled as
`Int`; list lengths and counts as `Nat`.
-/

/-- JS `s.split(c)` for a one-character separator: splits at every occurrence,
keeping empty pieces (so a trailing separator yields a trailing empty string). -/
def splitAux (c : Char) : List Char → List Char → List (List Char)
  | [], acc => [acc.reverse]
  | d :: ds, acc => if d = c then acc.reverse :: splitAux c ds [] else splitAux c ds (d :: acc)

/-- JS `s.split(c)` (single-character separator). -/
def jsSplit (c : Char) (s : String) : List String :=
  (splitAux c s.data []).map fun cs => String.mk cs

/-- JS `s.substring(0, n)`. -/
def jsTake (n : Nat) (s : String) : String := String.mk (s.data.take n)

/-- JS `s.trim()`. -/
def jsTrim (s : String) : String :=
  String.mk (((s.data.dropWhile Char.isWhitespace).reverse.dropWhile Char.isWhitespace).reverse)

/-- JS `s.startsWith(pat)`. -/
def jsStartsWith (s pat : String) : Bool := s.data.take pat.data.length = pat.data

/-- JS `s.includes(c)` for a single character (used as `folder.includes('.')`). -/
def jsContainsChar (s : String) (c : Char) : Bool := s.data.contains c

/-- JS `a || b` on strings: the empty string is falsy and falls through to the
default. -/
def jsOrStr (o : Option String) (dflt : String) : String :=
  match o with
  | some s => if s = "" then dflt else s
  | none => dflt

/-- JS truthiness of a possibly-undefined string (`if (x)` with x a string or
undefined): undefined and the empty string are falsy. -/
def jsTruthy (o : Option String) : Bool :=
  match o with
  | some s => s ≠ ""
  | none => false

/-- Outcome of JS date parsing (`new Date(x)` / date-fns `parseISO(x)`) applied
to a timestamp field. ISO-8601 parsing itself is external library behaviour and
is not re-implemented; a timestamp carries which of the source-distinguished
cases it falls in: the field is absent, it is an empty/whitespace-only string,
it is present but unparseable (an Invalid Date, `getTime()` is NaN), or it
parses to an epoch-milliseconds value. -/
inductive IsoString where
  | missing
  | blank
  | invalid
  | valid (ms : Int)
deriving DecidableEq

/-- The epoch milliseconds of a timestamp when it parses to a valid date. -/
def IsoString.msVal : IsoString → Option Int
  | .valid ms => some ms
  | _ => none

/-- Rendering of date-fns `formatDistanceToNow` on a valid date. Its exact
human-readable output is irrelevant to every claim; what matters is that it is
a pure function of the clock and the date, and that on an Invalid Date the real
library throws a RangeError - call sites model that throw by not reaching this
function. -/
def formatDistanceToNow (now ms : Int) : String :=
  toString (now - ms)

/-- One todo item as read from a TodoWrite tool-use input
(`{ content, status }`). -/
structure TodoItem where
  content : String
  status : String
deriving DecidableEq

/-- Todo progress statistics shared by both readers
(`{ completed, total, firstInProgress }`). -/
structure TodoStats where
  completed : Nat
  total : Nat
  firstInProgress : Option String
deriving DecidableEq

/-- One typed content block of a Claude JSONL message
(`{ type, text?, name?, input? }`). `inputTodos` is `some l` exactly when the
block has an `input.todos` field that is an array (the code checks
`Array.isArray`); `inputFilePath` models `input.file_path`. -/
structure ContentBlock where
  type : String
  text : Option String := none
  name : Option String := none
  inputTodos : Option (List TodoItem) := none
  inputFilePath : Option String := none
deriving DecidableEq

/-- The `message.content` payload of a JSONL record: absent
(`message` or `message.content` undefined), a plain string, or an array of
typed content blocks. -/
inductive MessageContent where
  | absent
  | str (s : String)
  | blocks (bs : List ContentBlock)
deriving DecidableEq

/-- A parsed non-summary JSONL record (`ClaudeMessage`). `cwd` is optional
because a record missing it makes `extractProjectName` throw on
`cwd.split('/')`. -/
structure ClaudeMsg where
  type : String
  timestamp : IsoString
  cwd : Option String
  sessionId : String
  content : MessageContent
deriving DecidableEq

/-- One line of a JSONL session file after the blank-line filter
(`content.trim().split('\n').filter(line => line.trim())`): either JSON.parse
throws on it (malformed), or it parses to a record whose `type` is `summary`,
or to any other record, kept as a message. -/
inductive JsonLine where
  | malformed
  | summary (text : String) (leafUuid : String)
  | message (m : ClaudeMsg)
deriving DecidableEq

/-- The message record carried by a line, if any. -/
def JsonLine.asMessage : JsonLine → Option ClaudeMsg
  | .message m => some m
  | _ => none

/-- The summary text carried by a line, if any. -/
def JsonLine.asSummary : JsonLine → Option String
  | .summary t _ => some t
  | _ => none

/-- Normalized Claude session (`ClaudeSession`), the unified format matching
the Cursor `ConversationSummary`. -/
structure ClaudeSession where
  projectName : String
  composerId : String
  messageCount : Nat
  hasCodeBlocks : Bool
  codeBlockCount : Nat
  relevantFiles : List String
  attachedFolders : List String
  firstMessage : Option String
  lastMessage : Option String
  storedSummary : Option String
  title : String
  conversationSize : Nat
  linesAdded : Int
  linesRemoved : Int
  todos : TodoStats
  lastActivityTime : String
  lastActivityTimeMsAgo : Int
  model : String
  hasBlockingPendingActions : Bool
deriving DecidableEq

namespace ClaudeJsonlReader

/-- `extractMessageText`: first text-typed content block (truthy text only),
or the string content itself, truncated to 200 and trimmed. -/
def extractMessageText (m : Option ClaudeMsg) : Option String :=
  match m with
  | none => none
  | some m =>
    match m.content with
    | .absent => none
    | .blocks bs =>
      match (bs.find? fun c => c.type = "text").bind ContentBlock.text with
      | some t => if t = "" then none else some (jsTrim (jsTake 200 t))
      | none => none
    | .str s => some (jsTrim (jsTake 200 s))

/-- The todos list taken from one message by `extractTodoStats`: the first
content block that is a `tool_use` named `TodoWrite` whose `input.todos` is an
array (the inner loop breaks there, even on an empty array). -/
def msgTodos (m : ClaudeMsg) : Option (List TodoItem) :=
  match m.content with
  | .blocks bs =>
    ((bs.find? fun c => c.type = "tool_use" ∧ c.name = some "TodoWrite" ∧ c.inputTodos.isSome).bind
      ContentBlock.inputTodos)
  | _ => none

/-- The backward scan of `extractTodoStats`: starting from the most recent
message (the input here is the reversed message list), take the first selected
todos list; the outer loop only stops once `latestTodos.length > 0`, so an
empty selected list does not end the scan. -/
def latestTodosRev : List ClaudeMsg → List TodoItem
  | [] => []
  | m :: rest =>
    match msgTodos m with
    | some l => if l.length > 0 then l else latestTodosRev rest
    | none => latestTodosRev rest

/-- `extractTodoStats`: find the most recent TodoWrite tool call and report
completed count, total count and the content of the first in-progress item. -/
def extractTodoStats (messages : List ClaudeMsg) : TodoStats :=
  let latestTodos := latestTodosRev messages.reverse
  { completed := (latestTodos.filter fun t => t.status = "completed").length
    total := latestTodos.length
    firstInProgress := (latestTodos.find? fun t => t.status = "in_progress").map TodoItem.content }

/-- `extractProjectName`: last path segment of the working directory, with
`Unknown Project` when it is empty. -/
def extractProjectName (cwd : String) : String :=
  let parts := jsSplit '/' cwd
  jsOrStr parts.getLast? "Unknown Project"

/-- Tool names whose `tool_use` blocks count as code blocks. -/
def codeToolNames : List String := ["Write", "Edit", "MultiEdit"]

/-- Whether a content block is a code-touching `tool_use`
(`['Write','Edit','MultiEdit'].includes(name || '')`). -/
def isCodeToolUse (c : ContentBlock) : Bool :=
  c.type = "tool_use" ∧ codeToolNames.contains (c.name.getD "")

/-- `hasCodeBlocks`: some message contains a code-touching tool_use block. -/
def hasCodeBlocks (messages : List ClaudeMsg) : Bool :=
  messages.any fun m =>
    match m.content with
    | .blocks bs => bs.any isCodeToolUse
    | _ => false

/-- `countCodeBlocks`: total number of code-touching tool_use blocks. -/
def countCodeBlocks (messages : List ClaudeMsg) : Nat :=
  (messages.map fun m =>
    match m.content with
    | .blocks bs => (bs.filter isCodeToolUse).length
    | _ => 0).sum

/-- Insert at the back unless already present: the order-preserving dedup of a
JS `Set` built by successive `add` calls. -/
def addUnique (acc : List String) (s : String) : List String :=
  if acc.contains s then acc else acc ++ [s]

/-- `extractRelevantFiles`: deduplicated `input.file_path` values of tool_use
blocks naming Write, Edit, MultiEdit or Read (a truthy path only). -/
def extractRelevantFiles (messages : List ClaudeMsg) : List String :=
  let paths := messages.flatMap fun m =>
    match m.content with
    | .blocks bs => bs.filterMap fun c =>
      if c.type = "tool_use" ∧ (codeToolNames ++ ["Read"]).contains (c.name.getD "") ∧
          jsTruthy c.inputFilePath then
        c.inputFilePath
      else none
    | _ => []
  paths.foldl addUnique []

/-- `extractModel`: constant. -/
def extractModel (_messages : List ClaudeMsg) : String := "Claude"

/-- `hasBlockingPendingActions`: state machine over the single last message.
An assistant message is blocking exactly when its block array contains a
`tool_use`; a user message with a block array is blocking exactly when it
contains a `tool_result`; a user message whose content is not a block array is
fresh input and blocking; anything else is not. -/
def hasBlockingPendingActions (messages : List ClaudeMsg) : Bool :=
  match messages.getLast? with
  | none => false
  | some lastMessage =>
    if lastMessage.type = "assistant" then
      match lastMessage.content with
      | .blocks bs => bs.any fun c => c.type = "tool_use"
      | _ => false
    else if lastMessage.type = "user" then
      match lastMessage.content with
      | .blocks bs => bs.any fun c => c.type = "tool_result"
      | _ => true
    else false

/-- Title derivation of `parseSessionFile` when no summary record exists: from
the first user message content (truthy text only), truncated to 60 characters
with an ellipsis marker when longer. -/
def titleFromText (t : String) : String :=
  jsTrim (jsTake 60 t) ++ (if 60 < t.data.length then "..." else "")

/-- Title part of `parseSessionFile`: prefer the first summary record, else
derive from the first user message, else the literal fallback. -/
def sessionTitle (summaries : List String) (messages : List ClaudeMsg) : String :=
  match summaries.head? with
  | some s => s
  | none =>
    match messages.find? fun m => m.type = "user" with
    | none => "Claude Session"
    | some m =>
      match m.content with
      | .blocks bs =>
        match (bs.find? fun c => c.type = "text").bind ContentBlock.text with
        | some t => if t = "" then "Claude Session" else titleFromText t
        | none => "Claude Session"
      | .str s => if s = "" then "Claude Session" else titleFromText s
      | .absent => "Claude Session"

/-- Body of `parseSessionFile` on the partitioned records. Returns `none`
when no line parsed to a message record, or when the body would throw:
`extractProjectName` throws if the first message has no `cwd` string, and
date-fns `formatDistanceToNow` throws a RangeError when the last message
timestamp does not parse to a valid date; both throws are caught by the
surrounding try and yield `null`. -/
def parseSessionBody (now : Int) (messages : List ClaudeMsg) (summaries : List String) :
    Option ClaudeSession :=
  match messages.head? with
    | none => none
    | some firstMessage =>
      match messages.getLast? with
      | none => none
      | some lastMessage =>
        match firstMessage.cwd, lastMessage.timestamp.msVal with
        | some cwd, some ms =>
          some {
            projectName := extractProjectName cwd
            composerId := firstMessage.sessionId
            messageCount := messages.length
            hasCodeBlocks := hasCodeBlocks messages
            codeBlockCount := countCodeBlocks messages
            relevantFiles := extractRelevantFiles messages
            attachedFolders := [cwd]
            firstMessage := extractMessageText (messages.find? fun m => m.type = "user")
            lastMessage := extractMessageText (some lastMessage)
            storedSummary := summaries.head?
            title := sessionTitle summaries messages
            conversationSize := 0
            linesAdded := 0
            linesRemoved := 0
            todos := extractTodoStats messages
            lastActivityTime := formatDistanceToNow now ms
            lastActivityTimeMsAgo := now - ms
            model := extractModel messages
            hasBlockingPendingActions := hasBlockingPendingActions messages }
        | _, _ => none

/-- `parseSessionFile` on the (blank-filtered) lines of one JSONL file: empty
line lists yield null, otherwise the lines are partitioned into summary and
message records and the body runs on them. -/
def parseSessionFile (now : Int) (lines : List JsonLine) : Option ClaudeSession :=
  if lines.isEmpty then none
  else parseSessionBody now (lines.filterMap JsonLine.asMessage) (lines.filterMap JsonLine.asSummary)

/-- State of the `ClaudeJsonlReader`: the session files across all projects,
already ordered newest-first by file modification time (the code stats and
sorts them before parsing); `.error` models an exception escaping the
directory enumeration (`fs.readdirSync` / `fs.statSync` run outside any try in
`getProjects` / `getProjectSessions`). `maxSessions` is the configured cap
(main.ts constructs the reader with 50). -/
structure State where
  files : Except String (List (List JsonLine))
  maxSessions : Nat

/-- `getRecentSessions(limit)`: `limit || config.maxSessions || 50` files are
parsed, newest first, keeping the sessions that parse. -/
def getRecentSessions (st : State) (now : Int) (limit : Nat) : Except String (List ClaudeSession) :=
  match st.files with
  | .error e => .error e
  | .ok fs =>
    let maxSessions := if limit ≠ 0 then limit else if st.maxSessions ≠ 0 then st.maxSessions else 50
    .ok ((fs.take maxSessions).filterMap (parseSessionFile now))

end ClaudeJsonlReader

example : jsSplit '/' "/a/b" = ["", "a", "b"] := by decide

example :
    ClaudeJsonlReader.extractProjectName "/Users/me/proj" = "proj" := by decide

example :
    ClaudeJsonlReader.extractProjectName "" = "Unknown Project" := by decide

/-- One cursor conversation todo (`{ content, status, id }`). -/
structure CursorTodo where
  content : String
  status : String
  id : String
deriving DecidableEq

/-- One entry of `fullConversationHeadersOnly` (`{ bubbleId, type }`). -/
structure ConversationHeader where
  bubbleId : String
  type : Int
deriving DecidableEq

/-- One resolved bubble message record, restricted to the fields the reader
touches. `text` is optional (a bubble record may lack it); `suggestedCodeBlocks`
keeps only the length of the array, the only thing read;
`createdAt` is the ISO timestamp string, possibly absent, empty or invalid. -/
structure Bubble where
  text : Option String := none
  relevantFiles : List String := []
  attachedFoldersNew : List String := []
  suggestedCodeBlocks : Nat := 0
  createdAt : IsoString := .missing
deriving DecidableEq

/-- One modern cursor conversation record (`composerData:<id>` blob),
restricted to the fields `getConversationSummary` reads.
`codeBlockDataKeys` is `Object.keys(conversation.codeBlockData)` in insertion
order; `serializedSize` stands for `JSON.stringify(conversation).length`. -/
structure CursorConversation where
  composerId : String
  name : String
  fullConversationHeadersOnly : List ConversationHeader
  codeBlockDataKeys : List String
  totalLinesAdded : Int
  totalLinesRemoved : Int
  todos : List CursorTodo
  hasBlockingPendingActions : Bool
  modelName : Option String
  text : String
  richText : String
  serializedSize : Nat
deriving DecidableEq

/-- Summary options bag (`SummaryOptions`). The max lengths go through
`x || 250`, so 0 falls back to the default. -/
structure SummaryOptions where
  includeFirstMessage : Bool := false
  includeLastMessage : Bool := false
  maxFirstMessageLength : Option Nat := none
  maxLastMessageLength : Option Nat := none
  includeStoredSummary : Bool := false
  includeFileList : Bool := false
  includeCodeBlockCount : Bool := false
  includeAttachedFolders : Bool := false
  includeMetadata : Bool := false
  includeTitle : Bool := false
deriving DecidableEq

/-- JS `x || d` on an optional count: undefined and 0 fall back to the
default. -/
def jsOrNat (o : Option Nat) (dflt : Nat) : Nat :=
  match o with
  | some n => if n = 0 then dflt else n
  | none => dflt

/-- Normalized cursor conversation summary (`ConversationSummary`) as built by
`CursorDatabaseReader.getConversationSummary`. -/
structure ConversationSummary where
  appName : String
  projectName : String
  composerId : String
  messageCount : Nat
  hasCodeBlocks : Bool
  codeBlockCount : Nat
  relevantFiles : List String
  attachedFolders : List String
  firstMessage : Option String
  lastMessage : Option String
  storedSummary : Option String
  storedRichText : Option String
  title : Option String
  aiGeneratedSummary : Option String
  conversationSize : Nat
  linesAdded : Int
  linesRemoved : Int
  todos : TodoStats
  lastActivityTime : String
  lastActivityTimeMsAgo : Int
  model : String
  hasBlockingPendingActions : Bool
deriving DecidableEq

namespace CursorDatabaseReader

/-- The bubble store of one conversation: `getBubbleMessage(composerId, b)` as
a pure lookup from bubble id to the parsed record, `none` when the row is
absent. -/
def BubbleStore := String → Option Bubble

/-- Accumulator of the bubble-resolution loop of `getConversationSummary`. -/
structure ResolveAcc where
  hasCodeBlocks : Bool := false
  codeBlockCount : Nat := 0
  relevantFiles : List String := []
  attachedFolders : List String := []
  firstMessage : Option String := none
  lastMessage : Option String := none

/-- One step of the bubble-resolution loop: an unresolved bubble is skipped;
a resolved one contributes its suggested code blocks, relevant files and
attached folders, and its text becomes the first message if none was truthy
yet and always becomes the last message. -/
def resolveStep (store : BubbleStore) (acc : ResolveAcc) (header : ConversationHeader) :
    ResolveAcc :=
  match store header.bubbleId with
  | none => acc
  | some bubble =>
    { hasCodeBlocks := acc.hasCodeBlocks || bubble.suggestedCodeBlocks > 0
      codeBlockCount := acc.codeBlockCount + bubble.suggestedCodeBlocks
      relevantFiles := bubble.relevantFiles.foldl ClaudeJsonlReader.addUnique acc.relevantFiles
      attachedFolders := bubble.attachedFoldersNew.foldl ClaudeJsonlReader.addUnique acc.attachedFolders
      firstMessage := if jsTruthy acc.firstMessage then acc.firstMessage else bubble.text
      lastMessage := bubble.text }

/-- The generic-folder blacklist of `getCommonFolderName`. -/
def folderBlacklist : List String :=
  ["src", "dist", "build", "out", "lib", "node_modules", "tests", "test", "__pycache__", "venv"]

/-- The segment all split paths agree on at index `i`, when they do
(`splitPaths.every(p => p[i] === segment)`). -/
def commonAt (splitPaths : List (List String)) (i : Nat) : Option String :=
  match splitPaths with
  | [] => none
  | p0 :: rest =>
    match p0.get? i with
    | none => none
    | some seg => if rest.all fun p => p.get? i = some seg then some seg else none

/-- The common-prefix loop of `getCommonFolderName`: push agreeing segments in
order, stop at the first disagreement (the loop bound `minLen` is subsumed by
`commonAt` returning `none` past the end of any path). -/
def commonSegsGo (splitPaths : List (List String)) : Nat → Nat → List String
  | 0, _ => []
  | fuel + 1, i =>
    match commonAt splitPaths i with
    | some seg => seg :: commonSegsGo splitPaths fuel (i + 1)
    | none => []

/-- The common path segments of the split paths. -/
def commonSegs (splitPaths : List (List String)) : List String :=
  commonSegsGo splitPaths ((splitPaths.head?.map List.length).getD 0) 0

/-- `getCommonFolderName`: split the paths on `/` dropping empty segments,
take the common leading segments, then walk them from the deepest upward and
return the first segment that is neither blacklisted nor contains a dot. -/
def getCommonFolderName (paths : List String) : Option String :=
  if paths.isEmpty then none
  else
    let splitPaths := paths.map fun p => (jsSplit '/' p).filter fun s => s ≠ ""
    let common := commonSegs splitPaths
    if common.isEmpty then none
    else
      common.reverse.find? fun folder =>
        ¬ folderBlacklist.contains folder ∧ ¬ jsContainsChar folder '.'

/-- `getLastActivityTime`: resolve the bubble of the final header and read its
`createdAt`; a missing bubble, or a missing, empty, whitespace-only or
unparseable timestamp yields the string `unknown` and 0 milliseconds ago,
never the current time. -/
def getLastActivityTime (store : BubbleStore) (conv : CursorConversation) (now : Int) :
    String × Int :=
  let lastBubble := (conv.fullConversationHeadersOnly.getLast?).bind fun h => store h.bubbleId
  match lastBubble with
  | none => ("unknown", 0)
  | some b =>
    match b.createdAt with
    | .missing => ("unknown", 0)
    | .blank => ("unknown", 0)
    | .invalid => ("unknown", 0)
    | .valid ms => (formatDistanceToNow now ms, now - ms)

/-- `getConversationSummary` on an already-fetched conversation record.
Bubbles are resolved only when an option requiring them is set and the config
allows automatic resolution. -/
def getConversationSummary (resolveBubbles : Bool) (store : BubbleStore)
    (conv : CursorConversation) (options : SummaryOptions) (now : Int) : ConversationSummary :=
  let needsBubbleResolution := options.includeFirstMessage || options.includeLastMessage ||
    options.includeCodeBlockCount || options.includeFileList
  let acc :=
    if needsBubbleResolution && resolveBubbles then
      conv.fullConversationHeadersOnly.foldl (resolveStep store) {}
    else ({} : ResolveAcc)
  let firstMessage :=
    if options.includeFirstMessage ∧ jsTruthy acc.firstMessage then
      acc.firstMessage.map (jsTake (jsOrNat options.maxFirstMessageLength 250))
    else none
  let lastMessage :=
    if options.includeLastMessage ∧ jsTruthy acc.lastMessage then
      acc.lastMessage.map (jsTake (jsOrNat options.maxLastMessageLength 250))
    else none
  let lastActivityTime := getLastActivityTime store conv now
  { appName := "cursor"
    projectName := jsOrStr (getCommonFolderName conv.codeBlockDataKeys) "unknown"
    composerId := conv.composerId
    messageCount := conv.fullConversationHeadersOnly.length
    hasCodeBlocks := acc.hasCodeBlocks
    codeBlockCount := if options.includeCodeBlockCount then acc.codeBlockCount else 0
    relevantFiles := if options.includeFileList then acc.relevantFiles else []
    attachedFolders := if options.includeAttachedFolders then acc.attachedFolders else []
    firstMessage := firstMessage
    lastMessage := lastMessage
    storedSummary := if options.includeStoredSummary then some conv.text else none
    storedRichText := if options.includeStoredSummary then some conv.richText else none
    title := if options.includeTitle then some conv.name else none
    aiGeneratedSummary := none
    conversationSize := conv.serializedSize
    linesAdded := conv.totalLinesAdded
    linesRemoved := conv.totalLinesRemoved
    todos :=
      { completed := (conv.todos.filter fun t => t.status = "completed").length
        total := conv.todos.length
        firstInProgress :=
          match conv.todos.find? fun t => t.status = "active" with
          | some t => if t.id = "" then none else some t.id
          | none => none }
    lastActivityTime := lastActivityTime.1
    lastActivityTimeMsAgo := lastActivityTime.2
    model := jsOrStr conv.modelName "unknown"
    hasBlockingPendingActions := conv.hasBlockingPendingActions }

/-- State of the `CursorDatabaseReader` as the get-recent-chats handler sees
it: the outcome of the ROWID-ordered id query (`.error` models a thrown
`DatabaseError`), the conversation rows by id, the per-conversation bubble
stores, and the `resolveBubblesAutomatically` config flag. -/
structure State where
  conversationIds : Except String (List String)
  getConv : String → Option CursorConversation
  bubbles : String → BubbleStore
  resolveBubblesAutomatically : Bool

end CursorDatabaseReader

example :
    CursorDatabaseReader.getCommonFolderName ["/home/me/proj/src/a.ts", "/home/me/proj/src/b.ts"]
      = some "proj" := by decide

example : CursorDatabaseReader.getCommonFolderName [] = none := by decide

example :
    CursorDatabaseReader.getCommonFolderName ["/x/file.ts"] = some "x" := by decide

/-- One entry of the merged `allChats` list of the get-recent-chats handler: a
cursor conversation summary or a Claude session, tagged with its source. -/
inductive Chat where
  | cursor (s : ConversationSummary)
  | claude (s : ClaudeSession)
deriving DecidableEq

/-- The `lastActivityTimeMsAgo` field the sort comparator reads. -/
def Chat.lastActivityTimeMsAgo : Chat → Int
  | .cursor s => s.lastActivityTimeMsAgo
  | .claude s => s.lastActivityTimeMsAgo

/-- Whether the entry is tagged `source: 'cursor'`. -/
def Chat.isCursor : Chat → Bool
  | .cursor _ => true
  | .claude _ => false

/-- Whether the entry is tagged `source: 'claude'`. -/
def Chat.isClaude : Chat → Bool
  | .cursor _ => false
  | .claude _ => true

/-- The comparator key of the handler sort,
`(chat.lastActivityTimeMsAgo as number) || 0`: the `|| 0` coercion only sends
NaN, undefined and 0 itself to 0, and every summary in the model carries an
integer, so the key is the field itself. -/
def sortKey (c : Chat) : Int := c.lastActivityTimeMsAgo

/-- Insertion into a key-sorted list, before the first element of key ≥ the
inserted key. -/
def insertByKey (a : Chat) : List Chat → List Chat
  | [] => [a]
  | b :: bs => if sortKey a ≤ sortKey b then a :: b :: bs else b :: insertByKey a bs

/-- `allChats.sort((a, b) => aTime - bTime)`: ES2019 `Array.prototype.sort` is
stable, and the stable ascending reordering of a list is unique, so it equals
this stable insertion sort by the comparator key. -/
def sortByKey : List Chat → List Chat
  | [] => []
  | a :: as => insertByKey a (sortByKey as)

/-- Summary options the handler passes to `getConversationSummary`. -/
def handlerOptions : SummaryOptions :=
  { includeFirstMessage := true
    includeLastMessage := true
    maxFirstMessageLength := some 100
    maxLastMessageLength := some 100
    includeTitle := true
    includeCodeBlockCount := true
    includeFileList := true
    includeMetadata := true }

/-- The cursor chats the handler collects: the first `floor(limit / 2)`
conversation ids are summarized; an id whose row is absent yields no entry
(`summary ? {...} : null` filtered out). -/
def cursorChatsOf (r : CursorDatabaseReader.State) (now : Int) (limit : Nat)
    (ids : List String) : List Chat :=
  ((ids.take (limit / 2)).filterMap fun id =>
    (r.getConv id).map fun conv =>
      CursorDatabaseReader.getConversationSummary r.resolveBubblesAutomatically
        (r.bubbles id) conv handlerOptions now).map Chat.cursor

/-- Result shape of the get-recent-chats handler: ranked data, per-source
warning strings (`undefined` is the empty list), and the source connection
report. -/
structure HandlerResult where
  data : List Chat
  errors : List String
  cursorConnected : Bool
  claudeConnected : Bool
deriving DecidableEq

/-- The `get-recent-chats` IPC handler of main.ts: collect up to
`floor(limit / 2)` summaries from each source (a missing reader or a thrown
per-source error becomes one warning string and contributes no entries),
concatenate cursor entries before Claude entries, sort ascending by
milliseconds ago, and truncate to `limit`. -/
def getRecentChats (limit : Nat) (dbReader : Option CursorDatabaseReader.State)
    (claudeReader : Option ClaudeJsonlReader.State) (now : Int) : HandlerResult :=
  let cursorPart : List Chat × List String :=
    match dbReader with
    | none => ([], ["Cursor database not connected"])
    | some r =>
      match r.conversationIds with
      | .error e => ([], ["Cursor: " ++ e])
      | .ok ids => (cursorChatsOf r now limit ids, [])
  let claudePart : List Chat × List String :=
    match claudeReader with
    | none => ([], ["Claude reader not initialized"])
    | some st =>
      match ClaudeJsonlReader.getRecentSessions st now (limit / 2) with
      | .error e => ([], ["Claude: " ++ e])
      | .ok sessions => (sessions.map Chat.claude, [])
  let allChats := cursorPart.1 ++ claudePart.1
  { data := (sortByKey allChats).take limit
    errors := cursorPart.2 ++ claudePart.2
    cursorConnected := dbReader.isSome
    claudeConnected := claudeReader.isSome }

/-- The summary shape the renderer hook reads off one IPC data entry. Fields
the hook guards against `undefined` are optional. -/
structure UiSummary where
  composerId : String
  title : Option String
  firstMessage : Option String
  todos : Option TodoStats
  lastActivityTimeMsAgo : Option Int
  hasBlockingPendingActions : Bool
  messageCount : Nat
  hasCodeBlocks : Bool
  codeBlockCount : Nat
  relevantFiles : List String
  linesAdded : Option Int
  linesRemoved : Option Int
  projectName : String
  lastActivityTime : Option String
  model : String
deriving DecidableEq

/-- The fields of a cursor summary as the renderer receives them over IPC. -/
def ConversationSummary.toUi (s : ConversationSummary) : UiSummary :=
  { composerId := s.composerId
    title := s.title
    firstMessage := s.firstMessage
    todos := some s.todos
    lastActivityTimeMsAgo := some s.lastActivityTimeMsAgo
    hasBlockingPendingActions := s.hasBlockingPendingActions
    messageCount := s.messageCount
    hasCodeBlocks := s.hasCodeBlocks
    codeBlockCount := s.codeBlockCount
    relevantFiles := s.relevantFiles
    linesAdded := some s.linesAdded
    linesRemoved := some s.linesRemoved
    projectName := s.projectName
    lastActivityTime := some s.lastActivityTime
    model := s.model }

/-- The fields of a Claude session as the renderer receives them over IPC. -/
def ClaudeSession.toUi (s : ClaudeSession) : UiSummary :=
  { composerId := s.composerId
    title := some s.title
    firstMessage := s.firstMessage
    todos := some s.todos
    lastActivityTimeMsAgo := some s.lastActivityTimeMsAgo
    hasBlockingPendingActions := s.hasBlockingPendingActions
    messageCount := s.messageCount
    hasCodeBlocks := s.hasCodeBlocks
    codeBlockCount := s.codeBlockCount
    relevantFiles := s.relevantFiles
    linesAdded := some s.linesAdded
    linesRemoved := some s.linesRemoved
    projectName := s.projectName
    lastActivityTime := some s.lastActivityTime
    model := s.model }

/-- Derived UI status of a task. -/
inductive TaskStatus where
  | active
  | pending
  | completed
deriving DecidableEq

/-- The task record the overlay renders. -/
structure ConversationTask where
  composerId : String
  title : String
  description : String
  status : TaskStatus
  messageCount : Nat
  hasCodeBlocks : Bool
  codeBlockCount : Nat
  relevantFiles : List String
  linesAdded : Int
  linesRemoved : Int
  todos : TodoStats
  projectName : String
  lastActivityTime : String
  hasBlockingPendingActions : Bool
  modelName : String
deriving DecidableEq

/-- `mapSummaryToTask` of the useOverlayData hook: status is `active` when the
activity time is defined and under 60 000 ms ago or the pending-action flag is
set, else `pending` while completed todos are fewer than total, else
`completed`. -/
def mapSummaryToTask (summary : UiSummary) : ConversationTask :=
  let todos := summary.todos.getD { completed := 0, total := 0, firstInProgress := some "unknown" }
  let isActive :=
    (match summary.lastActivityTimeMsAgo with
     | some ms => decide (ms < 60 * 1000)
     | none => false) || summary.hasBlockingPendingActions
  { composerId := summary.composerId
    title := jsOrStr summary.title
      (jsOrStr (summary.firstMessage.map (jsTake 50)) "Untitled conversation")
    description := jsOrStr summary.firstMessage "No description available"
    status :=
      if isActive then .active
      else if todos.completed < todos.total then .pending
      else .completed
    messageCount := summary.messageCount
    hasCodeBlocks := summary.hasCodeBlocks
    codeBlockCount := summary.codeBlockCount
    relevantFiles := summary.relevantFiles
    linesAdded := summary.linesAdded.getD 0
    linesRemoved := summary.linesRemoved.getD 0
    todos := todos
    projectName := summary.projectName
    lastActivityTime := summary.lastActivityTime.getD "moments"
    hasBlockingPendingActions := summary.hasBlockingPendingActions
    modelName := summary.model }

theorem insertByKey_perm (a : Chat) (l : List Chat) : (insertByKey a l).Perm (a :: l) := by
  induction l with
  | nil => simp [insertByKey]
  | cons b bs ih =>
    by_cases h : sortKey a ≤ sortKey b
    · simp [insertByKey, h]
    · simp only [insertByKey, if_neg h]
      exact (ih.cons b).trans (List.Perm.swap a b bs)

theorem sortByKey_perm (l : List Chat) : (sortByKey l).Perm l := by
  induction l with
  | nil => simp [sortByKey]
  | cons a as ih =>
    exact (insertByKey_perm a (sortByKey as)).trans (ih.cons a)

theorem pairwise_insertByKey {a : Chat} {l : List Chat}
    (h : l.Pairwise fun x y => sortKey x ≤ sortKey y) :
    (insertByKey a l).Pairwise fun x y => sortKey x ≤ sortKey y := by
  induction l with
  | nil => simp [insertByKey]
  | cons b bs ih =>
    rcases List.pairwise_cons.mp h with ⟨hb, hbs⟩
    by_cases hab : sortKey a ≤ sortKey b
    · simp only [insertByKey, if_pos hab]
      refine List.pairwise_cons.mpr ⟨?_, h⟩
      intro x hx
      rcases List.mem_cons.mp hx with rfl | hx2
      · exact hab
      · exact le_trans hab (hb x hx2)
    · simp only [insertByKey, if_neg hab]
      refine List.pairwise_cons.mpr ⟨?_, ih hbs⟩
      intro x hx
      rcases List.mem_cons.mp ((insertByKey_perm a bs).mem_iff.mp hx) with rfl | hx2
      · exact le_of_not_le hab
      · exact hb x hx2

theorem sortByKey_pairwise (l : List Chat) :
    (sortByKey l).Pairwise fun x y => sortKey x ≤ sortKey y := by
  induction l with
  | nil => simp [sortByKey]
  | cons a as ih => exact pairwise_insertByKey ih

theorem handler_data_pairwise (limit : Nat) (dbReader : Option CursorDatabaseReader.State)
    (claudeReader : Option ClaudeJsonlReader.State) (now : Int) :
    (getRecentChats limit dbReader claudeReader now).data.Pairwise
      fun x y => sortKey x ≤ sortKey y := by
  exact List.Pairwise.sublist (List.take_sublist _ _) (sortByKey_pairwise _)

/-- A user message whose content is a block array holding only text: fresh
human input in array form. -/
def c4UserTextMsg : ClaudeMsg :=
  { type := "user"
    timestamp := .valid 0
    cwd := some "/p"
    sessionId := "s"
    content := .blocks [{ type := "text", text := some "please continue" }] }

/-- C4 counterexample: the claim says a session whose last message is a user
message without a tool_result block has `hasBlockingPendingActions = true`
(fresh human input), but for a user message whose content is an array of
blocks with no tool_result the code returns the `isToolResult` value, which is
false. -/
theorem C4_counterexample :
    c4UserTextMsg.type = "user" ∧
    c4UserTextMsg.content = .blocks [{ type := "text", text := some "please continue" }] ∧
    ([({ type := "text", text := some "please continue" } : ContentBlock)].any
      fun c => c.type = "tool_result") = false ∧
    ClaudeJsonlReader.hasBlockingPendingActions [c4UserTextMsg] = false := by
  refine ⟨rfl, rfl, by decide, by decide⟩

/-- C4 amended: for a non-empty message list, `hasBlockingPendingActions` is
true iff (a) the last message is an assistant message whose block array
contains a tool_use, or (b) the last message is a user message whose block
array contains a tool_result, or (c) the last message is a user message whose
content is not a block array at all (plain-string or absent content, the
fresh-input case); it is false for an assistant message without tool_use, for
a user message whose block array lacks a tool_result, and for any other type
of last message. -/
theorem C4_pending_state_machine (messages : List ClaudeMsg) (m : ClaudeMsg)
    (h : messages.getLast? = some m) :
    (ClaudeJsonlReader.hasBlockingPendingActions messages = true) ↔
      ((m.type = "assistant" ∧
          ∃ bs, m.content = .blocks bs ∧ (bs.any fun c => c.type = "tool_use") = true) ∨
       (m.type = "user" ∧
          ∃ bs, m.content = .blocks bs ∧ (bs.any fun c => c.type = "tool_result") = true) ∨
       (m.type = "user" ∧ ∀ bs, m.content ≠ .blocks bs)) := by
  have hbs : ClaudeJsonlReader.hasBlockingPendingActions messages =
      (if m.type = "assistant" then
        match m.content with
        | .blocks bs => bs.any fun c => c.type = "tool_use"
        | _ => false
      else if m.type = "user" then
        match m.content with
        | .blocks bs => bs.any fun c => c.type = "tool_result"
        | _ => true
      else false) := by
    unfold ClaudeJsonlReader.hasBlockingPendingActions
    rw [h]
  rw [hbs]
  have hne : ("assistant" : String) ≠ "user" := by decide
  by_cases ha : m.type = "assistant"
  · have hu : ¬ m.type = "user" := fun hu => hne (ha.symm.trans hu)
    rcases hc : m.content with _ | s | bs
    all_goals simp [ha, hu, hc]
  · by_cases hu : m.type = "user"
    · rcases hc : m.content with _ | s | bs
      all_goals simp [ha, hu, hc]
    · rcases hc : m.content with _ | s | bs
      all_goals simp [ha, hu, hc]

/-- An assistant message ending in a tool_use block. -/
def c4AssistantToolMsg : ClaudeMsg :=
  { type := "assistant"
    timestamp := .valid 0
    cwd := some "/p"
    sessionId := "s"
    content := .blocks [{ type := "tool_use", name := some "Bash" }] }

/-- Witness for C4 at a concrete session log ending in an assistant tool_use
message. -/
theorem C4_pending_state_machine_witness :
    ClaudeJsonlReader.hasBlockingPendingActions [c4UserTextMsg, c4AssistantToolMsg] = true :=
  (C4_pending_state_machine [c4UserTextMsg, c4AssistantToolMsg] c4AssistantToolMsg rfl).mpr
    (Or.inl ⟨rfl, [{ type := "tool_use", name := some "Bash" }], rfl, by decide⟩)

/-- The todo selection exactly as the claim words it: scanning the messages
from the end backward, the first TodoWrite tool_use block encountered provides
the authoritative list from its `input.todos` array and the scan stops at that
first match, so earlier TodoWrite blocks are ignored - even when the matched
list is empty. -/
def claimLatestTodos (messages : List ClaudeMsg) : List TodoItem :=
  ((messages.reverse.filterMap ClaudeJsonlReader.msgTodos).head?).getD []

/-- An earlier message writing one completed todo. -/
def c5EarlierMsg : ClaudeMsg :=
  { type := "assistant"
    timestamp := .valid 0
    cwd := some "/p"
    sessionId := "s"
    content := .blocks
      [{ type := "tool_use", name := some "TodoWrite"
         inputTodos := some [{ content := "ship it", status := "completed" }] }] }

/-- A later message writing an empty todo list. -/
def c5LaterMsg : ClaudeMsg :=
  { type := "assistant"
    timestamp := .valid 0
    cwd := some "/p"
    sessionId := "s"
    content := .blocks
      [{ type := "tool_use", name := some "TodoWrite", inputTodos := some [] }] }

/-- C5 counterexample: the most recent TodoWrite block carries an empty todos
array; the claim says the scan stops there (yielding 0 completed of 0), but
the code only stops once it has a non-empty list, so the earlier write wins
and the stats report 1 completed of 1. -/
theorem C5_counterexample :
    claimLatestTodos [c5EarlierMsg, c5LaterMsg] = [] ∧
    ClaudeJsonlReader.extractTodoStats [c5EarlierMsg, c5LaterMsg] =
      { completed := 1, total := 1, firstInProgress := none } ∧
    ClaudeJsonlReader.extractTodoStats [c5EarlierMsg, c5LaterMsg] ≠
      { completed := 0, total := 0, firstInProgress := none } := by
  refine ⟨by decide, by decide, by decide⟩

theorem latestTodosRev_eq_find (msgs : List ClaudeMsg) :
    ClaudeJsonlReader.latestTodosRev msgs =
      ((msgs.filterMap ClaudeJsonlReader.msgTodos).find? fun l => ¬ l.isEmpty).getD [] := by
  induction msgs with
  | nil => rfl
  | cons m rest ih =>
    cases hm : ClaudeJsonlReader.msgTodos m with
    | none => simpa [ClaudeJsonlReader.latestTodosRev, hm] using ih
    | some l =>
      cases l with
      | nil => simpa [ClaudeJsonlReader.latestTodosRev, hm, List.find?] using ih
      | cons t ts => simp [ClaudeJsonlReader.latestTodosRev, hm, List.find?]

/-- C5 amended: the backward scan does not stop at the first TodoWrite match
as such - within each message the first tool_use block named TodoWrite whose
`input.todos` is an array is selected, and the scan stops at the most recent
message whose selected list is non-empty; a TodoWrite carrying an empty todos
array is skipped, letting an earlier non-empty write win, and when no
non-empty list exists the stats are empty. Completed counts the items with
status completed, total is the list length, and firstInProgress is the content
of the first item with status in_progress. -/
theorem C5_todo_extraction (messages : List ClaudeMsg) :
    ClaudeJsonlReader.extractTodoStats messages =
      (let latest :=
        ((messages.reverse.filterMap ClaudeJsonlReader.msgTodos).find? fun l => ¬ l.isEmpty).getD []
      { completed := (latest.filter fun t => t.status = "completed").length
        total := latest.length
        firstInProgress :=
          (latest.find? fun t => t.status = "in_progress").map TodoItem.content }) := by
  unfold ClaudeJsonlReader.extractTodoStats
  rw [latestTodosRev_eq_find]

/-- C7: for a summary carrying an activity time and todo stats, the derived UI
status is active when the summary is less than 60000 ms old or its
pending-action flag is set, else pending while completed todos are fewer than
total todos, else completed. -/
theorem C7_status_derivation (s : UiSummary) (ms : Int) (t : TodoStats)
    (hms : s.lastActivityTimeMsAgo = some ms) (ht : s.todos = some t) :
    (mapSummaryToTask s).status =
      (if ms < 60000 ∨ s.hasBlockingPendingActions then .active
       else if t.completed < t.total then .pending
       else .completed) := by
  unfold mapSummaryToTask
  rw [hms, ht]
  by_cases h1 : ms < 60000 ∨ s.hasBlockingPendingActions
  · rcases h1 with h1 | h1 <;> simp_all
  · push_neg at h1
    have h2 : ¬ ms < 60 * 1000 := by omega
    have h3 : ¬ ms < 60000 := by omega
    have hb : s.hasBlockingPendingActions = false := by
      cases hv : s.hasBlockingPendingActions
      · rfl
      · exact absurd hv h1.2
    simp [h2, h3, hb]

/-- A summary five seconds old with an open todo list. -/
def c7Ui : UiSummary :=
  { composerId := "c"
    title := some "t"
    firstMessage := none
    todos := some { completed := 1, total := 3, firstInProgress := none }
    lastActivityTimeMsAgo := some 5000
    hasBlockingPendingActions := false
    messageCount := 1
    hasCodeBlocks := false
    codeBlockCount := 0
    relevantFiles := []
    linesAdded := some 0
    linesRemoved := some 0
    projectName := "p"
    lastActivityTime := some "5 seconds"
    model := "m" }

/-- Witness for C7: a summary 5000 ms old maps to status active. -/
theorem C7_status_derivation_witness : (mapSummaryToTask c7Ui).status = .active := by
  rw [C7_status_derivation c7Ui 5000 { completed := 1, total := 3, firstInProgress := none }
    rfl rfl]
  decide

/-- C6: whenever the timestamp of the final message is missing, empty or
unparseable, no wall-clock fallback happens. The cursor reader reports the
literal string `unknown` and 0 milliseconds ago, for every value of the clock;
the Claude JSONL reader produces no session at all in that case (date-fns
throws on the Invalid Date and the parser returns null), so no Claude summary
ever carries a fabricated time. -/
theorem C6_unknown_timestamp (resolve : Bool) (store : CursorDatabaseReader.BubbleStore)
    (conv : CursorConversation) (options : SummaryOptions) (now : Int) (b : Bubble)
    (hb : (conv.fullConversationHeadersOnly.getLast?).bind (fun h => store h.bubbleId) = some b)
    (hts : b.createdAt.msVal = none) :
    ((CursorDatabaseReader.getConversationSummary resolve store conv options now).lastActivityTime
        = "unknown" ∧
     (CursorDatabaseReader.getConversationSummary resolve store conv options now).lastActivityTimeMsAgo
        = 0) ∧
    (∀ (lines : List JsonLine) (m : ClaudeMsg),
      (lines.filterMap JsonLine.asMessage).getLast? = some m → m.timestamp.msVal = none →
      ClaudeJsonlReader.parseSessionFile now lines = none) := by
  constructor
  · have hlat : CursorDatabaseReader.getLastActivityTime store conv now = ("unknown", 0) := by
      unfold CursorDatabaseReader.getLastActivityTime
      rw [hb]
      obtain ⟨tx, rf, af, scb, ca⟩ := b
      cases ca with
      | valid ms => exact absurd hts (by simp [IsoString.msVal])
      | missing => rfl
      | blank => rfl
      | invalid => rfl
    constructor
    · show (CursorDatabaseReader.getLastActivityTime store conv now).1 = "unknown"
      rw [hlat]
    · show (CursorDatabaseReader.getLastActivityTime store conv now).2 = 0
      rw [hlat]
  · intro lines m hlast hnone
    unfold ClaudeJsonlReader.parseSessionFile
    by_cases hemp : lines.isEmpty
    · simp [hemp]
    · simp only [hemp, if_false, Bool.false_eq_true]
      unfold ClaudeJsonlReader.parseSessionBody
      cases hhead : (lines.filterMap JsonLine.asMessage).head? with
      | none => rfl
      | some first =>
        rw [hlast]
        obtain ⟨mt, mts, mcwd, msid, mc⟩ := m
        obtain ⟨ft, fts, fcwd, fsid, fc⟩ := first
        cases mts with
        | valid ms => exact absurd hnone (by simp [IsoString.msVal])
        | missing => cases fcwd <;> rfl
        | blank => cases fcwd <;> rfl
        | invalid => cases fcwd <;> rfl

/-- A bubble whose createdAt string does not parse. -/
def c6Bubble : Bubble := { text := some "hi", createdAt := .invalid }

/-- A one-message conversation whose final bubble is `c6Bubble`. -/
def c6Conv : CursorConversation :=
  { composerId := "conv1"
    name := "n"
    fullConversationHeadersOnly := [{ bubbleId := "b1", type := 1 }]
    codeBlockDataKeys := []
    totalLinesAdded := 0
    totalLinesRemoved := 0
    todos := []
    hasBlockingPendingActions := false
    modelName := some "gpt"
    text := ""
    richText := ""
    serializedSize := 200 }

/-- Bubble store resolving every id to `c6Bubble`. -/
def c6Store : CursorDatabaseReader.BubbleStore := fun _ => some c6Bubble

/-- Witness for C6 at a concrete conversation with an unparseable final
timestamp. -/
theorem C6_unknown_timestamp_witness :
    (CursorDatabaseReader.getConversationSummary true c6Store c6Conv handlerOptions 12345).lastActivityTime
      = "unknown" :=
  (C6_unknown_timestamp true c6Store c6Conv handlerOptions 12345 c6Bubble rfl rfl).1.1

/-- A single well-formed line that parses as a user message record with no
timestamp field. -/
def c9Lines : List JsonLine :=
  [.message
    { type := "user"
      timestamp := .missing
      cwd := some "/a"
      sessionId := "s"
      content := .str "hi" }]

/-- C9 counterexample: a file with exactly one line that parses as a
non-summary message record still yields null, because the record has no
timestamp and date-fns throws inside the try block; the claim that one parsed
message record suffices for a non-null session is false. -/
theorem C9_counterexample :
    (c9Lines.filterMap JsonLine.asMessage).length = 1 ∧
    ClaudeJsonlReader.parseSessionFile 0 c9Lines = none := by
  refine ⟨by decide, by decide⟩

theorem filterMap_asMessage_filter (lines : List JsonLine) :
    (lines.filter fun l => l ≠ .malformed).filterMap JsonLine.asMessage =
      lines.filterMap JsonLine.asMessage := by
  induction lines with
  | nil => rfl
  | cons l rest ih =>
    simp only [ne_eq, decide_not] at ih ⊢
    cases l <;> simp [List.filter_cons, List.filterMap_cons, JsonLine.asMessage, ih]

theorem filterMap_asSummary_filter (lines : List JsonLine) :
    (lines.filter fun l => l ≠ .malformed).filterMap JsonLine.asSummary =
      lines.filterMap JsonLine.asSummary := by
  induction lines with
  | nil => rfl
  | cons l rest ih =>
    simp only [ne_eq, decide_not] at ih ⊢
    cases l <;> simp [List.filter_cons, List.filterMap_cons, JsonLine.asSummary, ih]

theorem parseSessionFile_eq_none_of_no_messages (now : Int) (lines : List JsonLine)
    (h : lines.filterMap JsonLine.asMessage = []) :
    ClaudeJsonlReader.parseSessionFile now lines = none := by
  unfold ClaudeJsonlReader.parseSessionFile
  by_cases hemp : lines.isEmpty
  · simp [hemp]
  · simp only [hemp, if_false, Bool.false_eq_true]
    unfold ClaudeJsonlReader.parseSessionBody
    rw [h]
    rfl

/-- C9 amended: the parser is total over its caller (in the embedding it is a
function into an option, mirroring that every throw inside the body is caught
and becomes null); removing the lines that fail JSON parsing never changes the
result (they are silently skipped); and the file yields a non-null session iff
at least one line parses as a non-summary message record AND the first such
record carries a working-directory string AND the last such record carries a
parseable timestamp - one parsed message alone is not sufficient. -/
theorem C9_parse_totality (now : Int) (lines : List JsonLine) :
    (ClaudeJsonlReader.parseSessionFile now (lines.filter fun l => l ≠ .malformed) =
      ClaudeJsonlReader.parseSessionFile now lines) ∧
    ((ClaudeJsonlReader.parseSessionFile now lines).isSome =
      match (lines.filterMap JsonLine.asMessage).head?,
            (lines.filterMap JsonLine.asMessage).getLast? with
      | some first, some last => first.cwd.isSome && last.timestamp.msVal.isSome
      | _, _ => false) := by
  constructor
  · by_cases h : lines.filterMap JsonLine.asMessage = []
    · rw [parseSessionFile_eq_none_of_no_messages now lines h,
        parseSessionFile_eq_none_of_no_messages now _ (by rw [filterMap_asMessage_filter]; exact h)]
    · have hlines : ¬ lines.isEmpty := by
        intro he
        rw [List.isEmpty_iff] at he
        rw [he] at h
        exact h rfl
      have hfilt : ¬ (lines.filter fun l => l ≠ .malformed).isEmpty := by
        intro he
        rw [List.isEmpty_iff] at he
        have := filterMap_asMessage_filter lines
        rw [he] at this
        exact h this.symm
      unfold ClaudeJsonlReader.parseSessionFile
      simp only [hlines, hfilt, if_false, Bool.false_eq_true,
        filterMap_asMessage_filter, filterMap_asSummary_filter]
  · unfold ClaudeJsonlReader.parseSessionFile
    by_cases hemp : lines.isEmpty
    · rw [List.isEmpty_iff] at hemp
      subst hemp
      rfl
    · simp only [hemp, if_false, Bool.false_eq_true]
      unfold ClaudeJsonlReader.parseSessionBody
      cases hhead : (lines.filterMap JsonLine.asMessage).head? with
      | none => rfl
      | some first =>
        have hne : lines.filterMap JsonLine.asMessage ≠ [] := by
          intro h0
          rw [h0] at hhead
          cases hhead
        obtain ⟨last, hlast⟩ := Option.isSome_iff_exists.mp (List.getLast?_isSome.mpr hne)
        rw [hlast]
        obtain ⟨mt, mts, mcwd, msid, mc⟩ := last
        obtain ⟨ft, fts, fcwd, fsid, fc⟩ := first
        cases mts <;> cases fcwd <;> rfl

/-- The split paths of `getCommonFolderName`:
`paths.map(p => p.split('/').filter(Boolean))`. -/
def splitPathsOf (paths : List String) : List (List String) :=
  paths.map fun p => (jsSplit '/' p).filter fun s => s ≠ ""

theorem commonAt_get (sp : List (List String)) (i : Nat) (seg : String)
    (h : CursorDatabaseReader.commonAt sp i = some seg) :
    ∀ p ∈ sp, p.get? i = some seg := by
  cases sp with
  | nil => cases h
  | cons p0 rest =>
    simp only [CursorDatabaseReader.commonAt] at h
    split at h
    · cases h
    · next s0 hp0 =>
      split at h
      · next hall =>
        injection h with hs
        subst hs
        intro p hp
        rcases List.mem_cons.mp hp with rfl | hp2
        · exact hp0
        · exact of_decide_eq_true (List.all_eq_true.mp hall p hp2)
      · cases h

theorem commonSegsGo_prefix (sp : List (List String)) :
    ∀ (fuel i : Nat), ∀ p ∈ sp, (CursorDatabaseReader.commonSegsGo sp fuel i).IsPrefix (p.drop i) := by
  intro fuel
  induction fuel with
  | zero =>
    intro i p _
    exact List.nil_prefix
  | succ n ih =>
    intro i p hp
    unfold CursorDatabaseReader.commonSegsGo
    cases hca : CursorDatabaseReader.commonAt sp i with
    | none => exact List.nil_prefix
    | some seg =>
      have hpg := commonAt_get sp i seg hca p hp
      have hlt : i < p.length := by
        by_contra hge
        rw [List.get?_eq_none.mpr (by omega)] at hpg
        cases hpg
      have hseg : p.get ⟨i, hlt⟩ = seg := by
        have hx := List.get?_eq_get hlt
        rw [hx] at hpg
        injection hpg
      have hdrop : p.drop i = seg :: p.drop (i + 1) := by
        rw [List.drop_eq_get_cons hlt, hseg]
      rw [hdrop]
      exact (List.cons_prefix_cons).mpr ⟨rfl, ih (i + 1) p hp⟩

theorem commonSegsGo_length (sp : List (List String)) :
    ∀ (fuel i k : Nat), k ≤ fuel →
      (∀ j, j < k → (CursorDatabaseReader.commonAt sp (i + j)).isSome) →
      k ≤ (CursorDatabaseReader.commonSegsGo sp fuel i).length := by
  intro fuel
  induction fuel with
  | zero =>
    intro i k hk _
    unfold CursorDatabaseReader.commonSegsGo
    omega
  | succ n ih =>
    intro i k hk hall
    cases k with
    | zero => exact Nat.zero_le _
    | succ k2 =>
      have h0 := hall 0 (by omega)
      rw [Nat.add_zero] at h0
      obtain ⟨seg, hseg⟩ := Option.isSome_iff_exists.mp h0
      unfold CursorDatabaseReader.commonSegsGo
      rw [hseg]
      have hrec := ih (i + 1) k2 (by omega) (fun j hj => by
        have hx := hall (j + 1) (by omega)
        rwa [show i + (j + 1) = i + 1 + j by omega] at hx)
      simp only [List.length_cons]
      omega

theorem prefix_get? (l p : List String) (h : l.IsPrefix p) (j : Nat) (hj : j < l.length) :
    p.get? j = l.get? j := by
  obtain ⟨t, rfl⟩ := h
  exact List.get?_append hj

theorem commonSegs_is_common_prefix (sp : List (List String)) :
    ∀ p ∈ sp, (CursorDatabaseReader.commonSegs sp).IsPrefix p := by
  intro p hp
  have h := commonSegsGo_prefix sp ((sp.head?.map List.length).getD 0) 0 p hp
  rwa [List.drop_zero] at h

theorem commonSegs_longest (sp : List (List String)) (hne : sp ≠ [])
    (l : List String) (hl : ∀ p ∈ sp, l.IsPrefix p) :
    l.length ≤ (CursorDatabaseReader.commonSegs sp).length := by
  cases sp with
  | nil => exact absurd rfl hne
  | cons p0 rest =>
    have hlp0 : l.IsPrefix p0 := hl p0 (List.mem_cons_self p0 rest)
    have hk : l.length ≤ p0.length := hlp0.length_le
    unfold CursorDatabaseReader.commonSegs
    simp only [List.head?_cons, Option.map_some, Option.getD_some]
    apply commonSegsGo_length (p0 :: rest) p0.length 0 l.length hk
    intro j hj
    rw [Nat.zero_add]
    have hval : l.get? j = some (l.get ⟨j, hj⟩) := List.get?_eq_get hj
    have hp0 : p0.get? j = some (l.get ⟨j, hj⟩) := by
      rw [prefix_get? l p0 hlp0 j hj, hval]
    have hall : rest.all (fun p => p.get? j = some (l.get ⟨j, hj⟩)) = true := by
      rw [List.all_eq_true]
      intro p hp
      exact decide_eq_true
        (by rw [prefix_get? l p (hl p (List.mem_cons_of_mem _ hp)) j hj, hval])
    simp only [CursorDatabaseReader.commonAt]
    split
    · next heq =>
      rw [heq] at hp0
      cases hp0
    · next s0 heq =>
      rw [heq] at hp0
      injection hp0 with hs
      subst hs
      rw [if_pos hall]
      rfl

/-- Project-name inference exactly as the claim words it (claim-modelled, for
refutation): build the set of all file paths referenced anywhere in the
conversation - the attached folders and relevant files across resolved
messages - and run the common-prefix walk over that set. -/
def claimProjectName (store : CursorDatabaseReader.BubbleStore) (conv : CursorConversation) :
    String :=
  let acc := conv.fullConversationHeadersOnly.foldl (CursorDatabaseReader.resolveStep store) {}
  jsOrStr (CursorDatabaseReader.getCommonFolderName (acc.attachedFolders ++ acc.relevantFiles))
    "unknown"

/-- A bubble referencing the folder `/proj2/sub`. -/
def c8Bubble : Bubble :=
  { text := some "x", attachedFoldersNew := ["/proj2/sub"], createdAt := .valid 0 }

/-- A conversation whose code-block data is keyed by `/proj1/a.ts` while its
resolved messages reference `/proj2/sub`. -/
def c8Conv : CursorConversation :=
  { composerId := "conv8"
    name := "n"
    fullConversationHeadersOnly := [{ bubbleId := "b1", type := 1 }]
    codeBlockDataKeys := ["/proj1/a.ts"]
    totalLinesAdded := 0
    totalLinesRemoved := 0
    todos := []
    hasBlockingPendingActions := false
    modelName := some "gpt"
    text := ""
    richText := ""
    serializedSize := 300 }

/-- Bubble store for the C8 conversation. -/
def c8Store : CursorDatabaseReader.BubbleStore := fun _ => some c8Bubble

/-- C8 counterexample: the summary derives its project name from the keys of
`codeBlockData` (giving proj1), not from the attached folders and relevant
files of the resolved messages as the claim states (which would give sub). -/
theorem C8_counterexample :
    (CursorDatabaseReader.getConversationSummary true c8Store c8Conv handlerOptions 0).projectName
      = "proj1" ∧
    claimProjectName c8Store c8Conv = "sub" ∧
    ("proj1" : String) ≠ "sub" := by
  refine ⟨by decide, by decide, by decide⟩

/-- C8 amended: the path set feeding the inference is
`Object.keys(conversation.codeBlockData)` - the file paths of the per-file
code-block annotations - not the attached folders and relevant files. Over
that set the algorithm is as claimed: split each path on slashes, take the
longest common segment sequence (proved common and longest below), walk it
from the deepest segment upward skipping generic folders and dotted segments,
and fall back to unknown when the path set or the common part is empty or no
segment qualifies. -/
theorem C8_project_name (resolve : Bool) (store : CursorDatabaseReader.BubbleStore)
    (conv : CursorConversation) (options : SummaryOptions) (now : Int) :
    ((CursorDatabaseReader.getConversationSummary resolve store conv options now).projectName =
      (if conv.codeBlockDataKeys.isEmpty ∨
          (CursorDatabaseReader.commonSegs (splitPathsOf conv.codeBlockDataKeys)).isEmpty then
        "unknown"
      else
        jsOrStr
          ((CursorDatabaseReader.commonSegs (splitPathsOf conv.codeBlockDataKeys)).reverse.find?
            fun folder => ¬ CursorDatabaseReader.folderBlacklist.contains folder ∧
              ¬ jsContainsChar folder '.')
          "unknown")) ∧
    (∀ p ∈ splitPathsOf conv.codeBlockDataKeys,
      (CursorDatabaseReader.commonSegs (splitPathsOf conv.codeBlockDataKeys)).IsPrefix p) ∧
    (splitPathsOf conv.codeBlockDataKeys ≠ [] →
      ∀ l : List String,
        (∀ p ∈ splitPathsOf conv.codeBlockDataKeys, l.IsPrefix p) →
        l.length ≤ (CursorDatabaseReader.commonSegs (splitPathsOf conv.codeBlockDataKeys)).length) := by
  refine ⟨?_, commonSegs_is_common_prefix _, commonSegs_longest _⟩
  have hproj : (CursorDatabaseReader.getConversationSummary resolve store conv options now).projectName
      = jsOrStr (CursorDatabaseReader.getCommonFolderName conv.codeBlockDataKeys) "unknown" := rfl
  rw [hproj]
  unfold CursorDatabaseReader.getCommonFolderName
  by_cases he : conv.codeBlockDataKeys.isEmpty
  · simp [he, jsOrStr]
  · by_cases hc : CursorDatabaseReader.commonSegs (splitPathsOf conv.codeBlockDataKeys) = []
    · simp only [splitPathsOf, ne_eq, decide_not] at hc
      simp [he, hc, jsOrStr, splitPathsOf]
    · simp only [splitPathsOf, ne_eq, decide_not] at hc
      simp [he, hc, splitPathsOf]

/-- Witness for C8 at the concrete conversation: the amended equation
evaluates to proj1. -/
theorem C8_project_name_witness :
    (CursorDatabaseReader.getConversationSummary true c8Store c8Conv handlerOptions 0).projectName
      = "proj1" := by
  rw [(C8_project_name true c8Store c8Conv handlerOptions 0).1]
  decide

theorem getLastActivityTime_unknown (store : CursorDatabaseReader.BubbleStore)
    (conv : CursorConversation) (now : Int) (b : Bubble)
    (hb : (conv.fullConversationHeadersOnly.getLast?).bind (fun h => store h.bubbleId) = some b)
    (hts : b.createdAt.msVal = none) :
    CursorDatabaseReader.getLastActivityTime store conv now = ("unknown", 0) := by
  unfold CursorDatabaseReader.getLastActivityTime
  rw [hb]
  obtain ⟨tx, rf, af, scb, ca⟩ := b
  cases ca with
  | valid ms => exact absurd hts (by simp [IsoString.msVal])
  | missing => rfl
  | blank => rfl
  | invalid => rfl

/-- C10: a cursor conversation whose final bubble has a missing, empty or
unparseable createdAt produces a summary with `lastActivityTimeMsAgo` exactly
0; the renderer therefore derives status active for it (0 < 60000) no matter
its todos or pending-action flag, and in the merge its comparator key 0 is
less than or equal to the key of every entry with a nonnegative known
milliseconds-ago, so it ranks as most recent. -/
theorem C10_unknown_time_is_fresh (resolve : Bool) (store : CursorDatabaseReader.BubbleStore)
    (conv : CursorConversation) (options : SummaryOptions) (now : Int) (b : Bubble)
    (hb : (conv.fullConversationHeadersOnly.getLast?).bind (fun h => store h.bubbleId) = some b)
    (hts : b.createdAt.msVal = none) :
    ((CursorDatabaseReader.getConversationSummary resolve store conv options now).lastActivityTimeMsAgo
        = 0) ∧
    ((mapSummaryToTask (ConversationSummary.toUi
        (CursorDatabaseReader.getConversationSummary resolve store conv options now))).status
        = .active) ∧
    (∀ c : Chat, 0 ≤ sortKey c →
      sortKey (Chat.cursor (CursorDatabaseReader.getConversationSummary resolve store conv options now))
        ≤ sortKey c) := by
  have hlat := getLastActivityTime_unknown store conv now b hb hts
  have h0 : (CursorDatabaseReader.getConversationSummary resolve store conv options now).lastActivityTimeMsAgo
      = 0 := by
    show (CursorDatabaseReader.getLastActivityTime store conv now).2 = 0
    rw [hlat]
  refine ⟨h0, ?_, ?_⟩
  · have hui : (ConversationSummary.toUi
        (CursorDatabaseReader.getConversationSummary resolve store conv options now)).lastActivityTimeMsAgo
        = some 0 := by
      show some (CursorDatabaseReader.getConversationSummary resolve store conv options now).lastActivityTimeMsAgo
        = some 0
      rw [h0]
    unfold mapSummaryToTask
    rw [hui]
    simp
  · intro c hc
    rw [show sortKey (Chat.cursor (CursorDatabaseReader.getConversationSummary resolve store conv options now))
      = (CursorDatabaseReader.getConversationSummary resolve store conv options now).lastActivityTimeMsAgo
      from rfl, h0]
    exact hc

/-- Witness for C10 at the concrete conversation with an unparseable final
timestamp. -/
theorem C10_unknown_time_is_fresh_witness :
    (mapSummaryToTask (ConversationSummary.toUi
      (CursorDatabaseReader.getConversationSummary true c6Store c6Conv handlerOptions 999))).status
      = .active :=
  (C10_unknown_time_is_fresh true c6Store c6Conv handlerOptions 999 c6Bubble rfl rfl).2.1

/-- The human-readable activity string the sort entries carry. -/
def Chat.lastActivityTime : Chat → String
  | .cursor s => s.lastActivityTime
  | .claude s => s.lastActivityTime

/-- Cursor reader state with one conversation whose final bubble timestamp is
unparseable. -/
def c1Cur : CursorDatabaseReader.State :=
  { conversationIds := .ok ["conv1"]
    getConv := fun _ => some c6Conv
    bubbles := fun _ => c6Store
    resolveBubblesAutomatically := true }

/-- Claude reader state with one session file whose single message is five
seconds old at clock 1000000. -/
def c1Cl : ClaudeJsonlReader.State :=
  { files := .ok [[.message
      { type := "user"
        timestamp := .valid 995000
        cwd := some "/p/q"
        sessionId := "s1"
        content := .str "hello" }]]
    maxSessions := 50 }

/-- C1 counterexample: merging one cursor summary with unknown activity time
against one Claude summary known to be 5000 ms old ranks the unknown one
first, not last - its reported milliseconds-ago is 0, the smallest key. -/
theorem C1_counterexample :
    ((getRecentChats 20 (some c1Cur) (some c1Cl) 1000000).data.map
        fun c => (c.isCursor, c.lastActivityTimeMsAgo)) = [(true, 0), (false, 5000)] ∧
    ((getRecentChats 20 (some c1Cur) (some c1Cl) 1000000).data.head?.map
        Chat.lastActivityTime) = some "unknown" := by
  refine ⟨by decide, by decide⟩

/-- C1 amended: the ranked output is ascending in the comparator key, and an
entry reported with unknown activity time carries key 0, so it is placed no
later than any entry with a positive known milliseconds-ago; equivalently, an
entry appearing after it can only have milliseconds-ago at most 0 - unknown
ranks as most recent, not last. -/
theorem C1_unknown_ranks_first (limit : Nat) (dbReader : Option CursorDatabaseReader.State)
    (claudeReader : Option ClaudeJsonlReader.State) (now : Int) :
    (∀ i j : Fin (getRecentChats limit dbReader claudeReader now).data.length,
      i < j →
      sortKey ((getRecentChats limit dbReader claudeReader now).data.get i) ≤
        sortKey ((getRecentChats limit dbReader claudeReader now).data.get j)) ∧
    (∀ i j : Fin (getRecentChats limit dbReader claudeReader now).data.length,
      i < j →
      ((getRecentChats limit dbReader claudeReader now).data.get i).lastActivityTimeMsAgo > 0 →
      ((getRecentChats limit dbReader claudeReader now).data.get j).lastActivityTimeMsAgo ≠ 0) := by
  have hpw := handler_data_pairwise limit dbReader claudeReader now
  have hget := List.pairwise_iff_get.mp hpw
  refine ⟨fun i j hij => hget i j hij, fun i j hij hpos hzero => ?_⟩
  have h := hget i j hij
  rw [show sortKey ((getRecentChats limit dbReader claudeReader now).data.get j)
      = ((getRecentChats limit dbReader claudeReader now).data.get j).lastActivityTimeMsAgo
      from rfl, hzero] at h
  exact absurd (lt_of_lt_of_le hpos h) (lt_irrefl 0)

/-- Witness for C1 at the concrete two-source instance. -/
theorem C1_unknown_ranks_first_witness :
    sortKey ((getRecentChats 20 (some c1Cur) (some c1Cl) 1000000).data.get ⟨0, by decide⟩) ≤
      sortKey ((getRecentChats 20 (some c1Cur) (some c1Cl) 1000000).data.get ⟨1, by decide⟩) :=
  (C1_unknown_ranks_first 20 (some c1Cur) (some c1Cl) 1000000).1 ⟨0, by decide⟩ ⟨1, by decide⟩
    (by decide)

theorem countP_isClaude_map_cursor (l : List ConversationSummary) :
    (l.map Chat.cursor).countP Chat.isClaude = 0 := by
  rw [List.countP_map, List.countP_eq_zero]
  intro a _
  simp [Function.comp, Chat.isClaude]

theorem countP_isCursor_map_claude (l : List ClaudeSession) :
    (l.map Chat.claude).countP Chat.isCursor = 0 := by
  rw [List.countP_map, List.countP_eq_zero]
  intro a _
  simp [Function.comp, Chat.isCursor]

theorem cursorChatsOf_length (r : CursorDatabaseReader.State) (now : Int) (limit : Nat)
    (ids : List String) : (cursorChatsOf r now limit ids).length ≤ limit / 2 := by
  unfold cursorChatsOf
  rw [List.length_map]
  exact le_trans (List.length_filterMap_le _ _) (List.length_take_le _ _)

theorem getRecentSessions_length (st : ClaudeJsonlReader.State) (now : Int) (limit : Nat)
    (sessions : List ClaudeSession)
    (h : ClaudeJsonlReader.getRecentSessions st now limit = .ok sessions) (hlp : limit ≠ 0) :
    sessions.length ≤ limit := by
  unfold ClaudeJsonlReader.getRecentSessions at h
  cases hfs : st.files with
  | error e => rw [hfs] at h; cases h
  | ok fs =>
    rw [hfs] at h
    simp only [hlp, if_true, ne_eq, not_false_iff, if_pos] at h
    injection h with h
    subst h
    exact le_trans (List.length_filterMap_le _ _) (List.length_take_le _ _)

theorem handler_decomp (limit : Nat) (dbReader : Option CursorDatabaseReader.State)
    (claudeReader : Option ClaudeJsonlReader.State) (now : Int) :
    ∃ cp qp : List Chat,
      (getRecentChats limit dbReader claudeReader now).data = (sortByKey (cp ++ qp)).take limit ∧
      cp.countP Chat.isClaude = 0 ∧ qp.countP Chat.isCursor = 0 ∧
      cp.length ≤ limit / 2 ∧
      (limit / 2 ≠ 0 → qp.length ≤ limit / 2) := by
  rcases dbReader with _ | r <;> rcases claudeReader with _ | st
  · exact ⟨[], [], rfl, rfl, rfl, by simp, fun _ => by simp⟩
  · cases hgs : ClaudeJsonlReader.getRecentSessions st now (limit / 2) with
    | error e =>
      refine ⟨[], [], ?_, rfl, rfl, by simp, fun _ => by simp⟩
      simp only [getRecentChats]
      rw [hgs]
    | ok sessions =>
      refine ⟨[], sessions.map Chat.claude, ?_, rfl, countP_isCursor_map_claude sessions, by simp,
        fun hne => ?_⟩
      · simp only [getRecentChats]
        rw [hgs]
      · rw [List.length_map]
        exact getRecentSessions_length st now (limit / 2) sessions hgs hne
  · cases hids : r.conversationIds with
    | error e =>
      refine ⟨[], [], ?_, rfl, rfl, by simp, fun _ => by simp⟩
      simp only [getRecentChats]
      rw [hids]
    | ok ids =>
      refine ⟨cursorChatsOf r now limit ids, [], ?_, ?_, rfl,
        cursorChatsOf_length r now limit ids, fun _ => by simp⟩
      · simp only [getRecentChats]
        rw [hids]
      · unfold cursorChatsOf
        exact countP_isClaude_map_cursor _
  · cases hids : r.conversationIds with
    | error e =>
      cases hgs : ClaudeJsonlReader.getRecentSessions st now (limit / 2) with
      | error e2 =>
        refine ⟨[], [], ?_, rfl, rfl, by simp, fun _ => by simp⟩
        simp only [getRecentChats]
        rw [hids, hgs]
      | ok sessions =>
        refine ⟨[], sessions.map Chat.claude, ?_, rfl, countP_isCursor_map_claude sessions,
          by simp, fun hne => ?_⟩
        · simp only [getRecentChats]
          rw [hids, hgs]
        · rw [List.length_map]
          exact getRecentSessions_length st now (limit / 2) sessions hgs hne
    | ok ids =>
      cases hgs : ClaudeJsonlReader.getRecentSessions st now (limit / 2) with
      | error e2 =>
        refine ⟨cursorChatsOf r now limit ids, [], ?_, ?_, rfl,
          cursorChatsOf_length r now limit ids, fun _ => by simp⟩
        · simp only [getRecentChats]
          rw [hids, hgs]
        · unfold cursorChatsOf
          exact countP_isClaude_map_cursor _
      | ok sessions =>
        refine ⟨cursorChatsOf r now limit ids, sessions.map Chat.claude, ?_, ?_,
          countP_isCursor_map_claude sessions, cursorChatsOf_length r now limit ids,
          fun hne => ?_⟩
        · simp only [getRecentChats]
          rw [hids, hgs]
        · unfold cursorChatsOf
          exact countP_isClaude_map_cursor _
        · rw [List.length_map]
          exact getRecentSessions_length st now (limit / 2) sessions hgs hne

/-- Claude reader state with eleven one-message session files, all five
seconds old at clock 1000000. -/
def c2Cl : ClaudeJsonlReader.State :=
  { files := .ok (List.replicate 11 [.message
      { type := "user"
        timestamp := .valid 995000
        cwd := some "/p/q"
        sessionId := "s1"
        content := .str "hello" }])
    maxSessions := 50 }

/-- Cursor reader state that is connected but has no conversations. -/
def c2Cur : CursorDatabaseReader.State :=
  { conversationIds := .ok []
    getConv := fun _ => none
    bubbles := fun _ => c6Store
    resolveBubblesAutomatically := true }

/-- C2 counterexample: at limit 1 the handler passes floor(1/2) = 0 to the
Claude reader, and the reader coerces the falsy 0 through
`limit || maxSessions || 50` to its configured maximum, so it collects from
the JSONL source far more than floor(1/2) = 0 summaries - one of which
reaches the output. -/
theorem C2_counterexample :
    ((getRecentChats 1 (some c2Cur) (some c2Cl) 1000000).data.countP Chat.isClaude = 1) ∧
    ((1 : Nat) / 2 = 0) ∧
    (ClaudeJsonlReader.getRecentSessions c2Cl 1000000 (1 / 2)).map List.length = .ok 11 := by
  refine ⟨by decide, by decide, by rfl⟩

/-- C2 amended: for every limit of at least 2 (so that the even split is
nonzero and the Claude reader does not fall back to its configured maximum),
the merged query keeps at most floor(limit/2) entries of each source in its
output, the output is sorted ascending by milliseconds-ago, and it is
truncated to at most limit entries. For limit 0 or 1 the JSONL source instead
collects up to its configured maximum (50) sessions, though the output is
still truncated to the limit. -/
theorem C2_merge_fairness (limit : Nat) (hl : 2 ≤ limit)
    (dbReader : Option CursorDatabaseReader.State)
    (claudeReader : Option ClaudeJsonlReader.State) (now : Int) :
    ((getRecentChats limit dbReader claudeReader now).data.countP Chat.isCursor ≤ limit / 2) ∧
    ((getRecentChats limit dbReader claudeReader now).data.countP Chat.isClaude ≤ limit / 2) ∧
    ((getRecentChats limit dbReader claudeReader now).data.length ≤ limit) ∧
    ((getRecentChats limit dbReader claudeReader now).data.Pairwise
      fun x y => sortKey x ≤ sortKey y) := by
  obtain ⟨cp, qp, hdata, hcc, hqc, hcl, hql⟩ := handler_decomp limit dbReader claudeReader now
  have hql2 : qp.length ≤ limit / 2 := hql (by omega)
  have hcount : ∀ p : Chat → Bool,
      (getRecentChats limit dbReader claudeReader now).data.countP p ≤ (cp ++ qp).countP p := by
    intro p
    rw [hdata]
    exact le_trans (List.Sublist.countP_le p (List.take_sublist _ _))
      (le_of_eq ((sortByKey_perm _).countP_eq p))
  refine ⟨?_, ?_, ?_, handler_data_pairwise limit dbReader claudeReader now⟩
  · refine le_trans (hcount Chat.isCursor) ?_
    rw [List.countP_append, hqc, Nat.add_zero]
    exact le_trans (List.countP_le_length _) hcl
  · refine le_trans (hcount Chat.isClaude) ?_
    rw [List.countP_append, hcc, Nat.zero_add]
    exact le_trans (List.countP_le_length _) hql2
  · rw [hdata]
    exact List.length_take_le _ _

/-- Witness for C2 at limit 20 with both concrete sources healthy. -/
theorem C2_merge_fairness_witness :
    (getRecentChats 20 (some c1Cur) (some c2Cl) 1000000).data.countP Chat.isClaude ≤ 20 / 2 :=
  (C2_merge_fairness 20 (by decide) (some c1Cur) (some c2Cl) 1000000).2.1

/-- The cursor source fails or is uninitialized: the reader object is null
(never connected) or its id query throws. -/
def cursorFails (r : Option CursorDatabaseReader.State) : Prop :=
  r = none ∨ ∃ st e, r = some st ∧ st.conversationIds = .error e

/-- The Claude source fails or is uninitialized: the reader object is null or
its directory enumeration throws. -/
def claudeFails (c : Option ClaudeJsonlReader.State) : Prop :=
  c = none ∨ ∃ st e, c = some st ∧ st.files = .error e

theorem jsStartsWith_append (a b pat : String) (h : jsStartsWith a pat = true)
    (hlen : pat.data.length ≤ a.data.length) : jsStartsWith (a ++ b) pat = true := by
  unfold jsStartsWith at h ⊢
  rw [show (a ++ b).data = a.data ++ b.data from rfl, List.take_append_of_le_length hlen]
  exact h

/-- C3: when exactly one source fails or is uninitialized while the other is
healthy, the handler still returns - the embedding is a total function,
mirroring that every per-source throw is caught - with the healthy source's
ranked summaries as data and exactly one warning string, which names the
failed source by starting with its name. -/
theorem C3_one_source_failure (limit : Nat) (now : Int)
    (dbReader : Option CursorDatabaseReader.State)
    (claudeReader : Option ClaudeJsonlReader.State) :
    (∀ (st : ClaudeJsonlReader.State) (sessions : List ClaudeSession),
      claudeReader = some st →
      ClaudeJsonlReader.getRecentSessions st now (limit / 2) = .ok sessions →
      cursorFails dbReader →
      ((getRecentChats limit dbReader claudeReader now).errors.length = 1 ∧
       (∀ e ∈ (getRecentChats limit dbReader claudeReader now).errors,
         jsStartsWith e "Cursor" = true) ∧
       (getRecentChats limit dbReader claudeReader now).data =
         (sortByKey (sessions.map Chat.claude)).take limit)) ∧
    (∀ (st : CursorDatabaseReader.State) (ids : List String),
      dbReader = some st → st.conversationIds = .ok ids →
      claudeFails claudeReader →
      ((getRecentChats limit dbReader claudeReader now).errors.length = 1 ∧
       (∀ e ∈ (getRecentChats limit dbReader claudeReader now).errors,
         jsStartsWith e "Claude" = true) ∧
       (getRecentChats limit dbReader claudeReader now).data =
         (sortByKey (cursorChatsOf st now limit ids)).take limit)) := by
  constructor
  · intro st sessions hcl hgs hf
    subst hcl
    rcases hf with rfl | ⟨st2, err, rfl, herr⟩
    · refine ⟨?_, ?_, ?_⟩
      · simp only [getRecentChats]
        rw [hgs]
        rfl
      · intro e he
        simp only [getRecentChats] at he
        rw [hgs] at he
        simp only [List.nil_append, List.append_nil, List.mem_singleton] at he
        subst he
        decide
      · simp only [getRecentChats]
        rw [hgs]
        rfl
    · refine ⟨?_, ?_, ?_⟩
      · simp only [getRecentChats]
        rw [herr, hgs]
        rfl
      · intro e he
        simp only [getRecentChats] at he
        rw [herr, hgs] at he
        simp only [List.nil_append, List.append_nil, List.mem_singleton] at he
        subst he
        exact jsStartsWith_append "Cursor: " err "Cursor" (by decide) (by decide)
      · simp only [getRecentChats]
        rw [herr, hgs]
        rfl
  · intro st ids hdb hids hf
    subst hdb
    rcases hf with rfl | ⟨st2, err, rfl, herr⟩
    · refine ⟨?_, ?_, ?_⟩
      · simp only [getRecentChats]
        rw [hids]
        rfl
      · intro e he
        simp only [getRecentChats] at he
        rw [hids] at he
        simp only [List.nil_append, List.append_nil, List.mem_singleton] at he
        subst he
        decide
      · simp only [getRecentChats]
        rw [hids]
        first
        | rfl
        | simp [List.append_nil]
    · have hgs : ClaudeJsonlReader.getRecentSessions st2 now (limit / 2) = .error err := by
        unfold ClaudeJsonlReader.getRecentSessions
        rw [herr]
      refine ⟨?_, ?_, ?_⟩
      · simp only [getRecentChats]
        rw [hids, hgs]
        rfl
      · intro e he
        simp only [getRecentChats] at he
        rw [hids, hgs] at he
        simp only [List.nil_append, List.append_nil, List.mem_singleton] at he
        subst he
        exact jsStartsWith_append "Claude: " err "Claude" (by decide) (by decide)
      · simp only [getRecentChats]
        rw [hids, hgs]
        first
        | rfl
        | simp [List.append_nil]

/-- Witness for C3: with the cursor reader null and a healthy empty Claude
reader, exactly one warning is returned. -/
theorem C3_one_source_failure_witness :
    (getRecentChats 20 none
      (some { files := .ok [], maxSessions := 50 }) 0).errors.length = 1 :=
  ((C3_one_source_failure 20 0 none (some { files := .ok [], maxSessions := 50 })).1
    { files := .ok [], maxSessions := 50 } [] rfl rfl (Or.inl rfl)).1
